import Mathlib

/-!
Shallow embedding of the CivitaiMediaHoarder download/validate/retry/repair
engine, together with theorems checking the natural-language specification
against the code.

Conventions of the embedding:
* Python byte strings are `List Nat` (each entry one byte value).
* Python `float` durations are modelled as `Rat` (the code only compares
  them against literal thresholds).
* Filesystem and network effects are made explicit: functions that look at
  the filesystem take the relevant observations as arguments, and functions
  with side effects return the updated state / an event log.
-/

namespace CivitaiMediaHoarder

/-! ## Python list-slicing primitives (`bytes[a:b]`, `startswith`) -/

/-- Python-style `l[n:]`: drop the first `n` elements, total. -/
def pydrop : Nat → List Nat → List Nat
  | 0, l => l
  | _ + 1, [] => []
  | n + 1, _ :: l => pydrop n l

/-- Python-style `l[:n]`: take the first `n` elements, total. -/
def pytake : Nat → List Nat → List Nat
  | 0, _ => []
  | _ + 1, [] => []
  | n + 1, a :: l => a :: pytake n l

/-- Python-style slice `l[a:b]`. -/
def pyslice (l : List Nat) (a b : Nat) : List Nat :=
  pytake (b - a) (pydrop a l)

/-- Python-style `bytes.startswith(prefix)`. -/
def startsWith : List Nat → List Nat → Bool
  | [], _ => true
  | _ :: _, [] => false
  | p :: ps, c :: cs => p == c && startsWith ps cs

/-! ## Validator (`src/utilities/video_validator.py`) -/

/-- `IMAGE_CODECS` from `video_validator.py`: image codecs that indicate a
video file actually contains a still image. -/
def IMAGE_CODECS : List String := ["webp", "png", "jpeg", "mjpeg", "gif", "bmp"]

/-- Result of a successful `get_video_info` probe:
`(estimated_frames, duration, codec_name)`. -/
structure ProbeInfo where
  frames : Int
  duration : Rat
  codec : String
deriving DecidableEq, Repr

/-- `VideoValidator.validate_video`, with the ffprobe call abstracted into
the `info` argument (`none` = probe failed / unparseable output).
Mirrors lines 209-224 of `video_validator.py`. -/
def validate_video (info : Option ProbeInfo) : Bool × Int × Rat :=
  match info with
  | none => (false, 0, 0)
  | some i =>
    if i.codec ∈ IMAGE_CODECS then (false, i.frames, i.duration)
    else if i.codec = "vp9" then (true, i.frames, i.duration)
    else if i.duration ≤ 0 then (false, i.frames, i.duration)
    else if i.frames ≤ 1 then (false, i.frames, i.duration)
    else (true, i.frames, i.duration)

/-- `VideoValidator.validate_image`, with filesystem observations abstracted:
`file_ok` is `path.exists() and path.is_file()`, and `detection` is the
sniffer result (`none` covers both a failed detection and the caught
`IOError`/`OSError`, which return the same value). Mirrors lines 170-183. -/
def validate_image (file_ok : Bool) (detection : Option (String × String × String)) :
    Bool × Nat × Rat :=
  if !file_ok then (false, 0, 0)
  else
    match detection with
    | none => (false, 0, 0)
    | some (media_type, _fmt, _ext) => (media_type == "image", 1, 0)

/-! ## Format Sniffer (`src/utilities/extension_handler.py`) -/

/-- A `(media_type, format_name, extension)` detection result. -/
abbrev FormatTriple := String × String × String

namespace ExtensionHandler

/-- The flat magic-byte signature table (`ExtensionHandler.SIGNATURES`),
in declared order; byte strings are lists of byte values. -/
def SIGNATURES : List (List Nat × FormatTriple) := [
  ([0xff, 0xd8, 0xff], ("image", "JPEG", ".jpg")),
  ([0x89, 0x50, 0x4e, 0x47, 0x0d, 0x0a, 0x1a, 0x0a], ("image", "PNG", ".png")),
  ([0x47, 0x49, 0x46, 0x38, 0x37, 0x61], ("image", "GIF", ".gif")),
  ([0x47, 0x49, 0x46, 0x38, 0x39, 0x61], ("image", "GIF", ".gif")),
  ([0x42, 0x4d], ("image", "BMP", ".bmp")),
  ([0x49, 0x49, 0x2a, 0x00], ("image", "TIFF", ".tiff")),
  ([0x4d, 0x4d, 0x00, 0x2a], ("image", "TIFF", ".tiff")),
  ([0x00, 0x00, 0x01, 0x00], ("image", "ICO", ".ico")),
  ([0xff, 0xfb], ("audio", "MP3", ".mp3")),
  ([0x49, 0x44, 0x33], ("audio", "MP3", ".mp3")),
  ([0x1a, 0x45, 0xdf, 0xa3], ("video", "WebM/MKV", ".webm")),
  ([0x66, 0x74, 0x79, 0x70, 0x69, 0x73, 0x6f, 0x6d], ("video", "MP4", ".mp4")),
  ([0x66, 0x74, 0x79, 0x70, 0x6d, 0x70, 0x34, 0x32], ("video", "MP4", ".mp4")),
  ([0x66, 0x74, 0x79, 0x70, 0x71, 0x74, 0x00], ("video", "MOV", ".mov")),
  ([0x66, 0x6c, 0x61, 0x63], ("audio", "FLAC", ".flac")),
  ([0x4f, 0x67, 0x67, 0x53], ("audio", "OGG", ".ogg")),
  ([0x00, 0x00, 0x00, 0x20, 0x66, 0x74, 0x79, 0x70, 0x68, 0x65, 0x69, 0x63],
    ("image", "HEIC", ".heic"))]

/-- `ExtensionHandler.RIFF_SIGNATURES`: RIFF container subtypes checked at
offset 8. -/
def RIFF_SIGNATURES : List (List Nat × FormatTriple) := [
  ([0x57, 0x41, 0x56, 0x45], ("audio", "WAV", ".wav")),
  ([0x41, 0x56, 0x49, 0x20], ("video", "AVI", ".avi")),
  ([0x57, 0x45, 0x42, 0x50], ("image", "WebP", ".webp"))]

/-- `b'RIFF'`. -/
def riffMagic : List Nat := [0x52, 0x49, 0x46, 0x46]

/-- `b'ftyp'`. -/
def ftypMagic : List Nat := [0x66, 0x74, 0x79, 0x70]

/-- Exact-key lookup in a signature association list (Python `dict` lookup). -/
def lookupSig : List (List Nat × FormatTriple) → List Nat → Option FormatTriple
  | [], _ => none
  | (k, v) :: rest, key => if k == key then some v else lookupSig rest key

/-- The ISO-BMFF `ftyp` brand dispatch
(`detect_format` lines 77-82: isom/mp4 -> MP4, qt -> MOV, heic -> HEIC). -/
def ftypLookup (code : List Nat) : Option FormatTriple :=
  if startsWith [0x69, 0x73, 0x6f, 0x6d] code || startsWith [0x6d, 0x70, 0x34] code then
    some ("video", "MP4", ".mp4")
  else if startsWith [0x71, 0x74] code then some ("video", "MOV", ".mov")
  else if startsWith [0x68, 0x65, 0x69, 0x63] code then some ("image", "HEIC", ".heic")
  else none

/-- First match in the flat signature table (`header.startswith`, declared
order, first match wins). -/
def firstMatch : List (List Nat × FormatTriple) → List Nat → Option FormatTriple
  | [], _ => none
  | (sig, v) :: rest, h => if startsWith sig h then some v else firstMatch rest h

/-- `header.startswith(b'RIFF') and len(header) > 12`. -/
def riffCond (h : List Nat) : Bool :=
  startsWith riffMagic h && decide (12 < h.length)

/-- `len(header) > 8 and header[4:8] == b'ftyp'`. -/
def ftypCond (h : List Nat) : Bool :=
  decide (8 < h.length) && (pyslice h 4 8 == ftypMagic)

/-- The body of `ExtensionHandler.detect_format` applied to the (at most
512-byte) header that was read from the file. -/
def detect_core (header : List Nat) : Option FormatTriple :=
  if header.isEmpty then none
  else
    match (if riffCond header then lookupSig RIFF_SIGNATURES (pyslice header 8 12)
           else none) with
    | some r => some r
    | none =>
      match (if ftypCond header then ftypLookup (pyslice header 8 12) else none) with
      | some r => some r
      | none => firstMatch SIGNATURES header

/-- `ExtensionHandler.detect_format`, on the file's content (the code reads
`f.read(512)`, hence the 512-byte truncation). The caught `IOError`/`OSError`
and missing-file branches (which return `None` before any bytes are read) are
not modelled: `content` is the content of a readable file. -/
def detect_format (content : List Nat) : Option FormatTriple :=
  detect_core (pytake 512 content)

/-- `format_variants` from `get_correct_extension`. -/
def format_variants : List (String × List String) := [
  ("JPEG", [".jpg", ".jpeg"]),
  ("TIFF", [".tiff", ".tif"]),
  ("MP3", [".mp3"]),
  ("OGG", [".ogg", ".oga", ".ogv"])]

/-- `ExtensionHandler.get_correct_extension`, with the file read abstracted
into `detection` (the result of `detect_format` on the file's content). -/
def get_correct_extension (detection : Option FormatTriple)
    (image_extensions video_extensions : List String)
    (audio_extensions : Option (List String)) : Option String :=
  match detection with
  | none => none
  | some (_media_type, format_name, detected_ext) =>
    let all_extensions :=
      image_extensions ++ video_extensions ++ audio_extensions.getD []
    if all_extensions.contains detected_ext then some detected_ext
    else
      match format_variants.lookup format_name with
      | none => none
      | some variants => variants.find? (fun v => all_extensions.contains v)

end ExtensionHandler

/-! ## Paths

A Python `pathlib.Path` as used by `validate_and_correct_file` and the
downloader: a directory part, a stem and a suffix.  `with_suffix` replaces
the suffix; `suffix` is the `ext` field. -/

structure PyPath where
  dir : String
  stem : String
  ext : String
deriving DecidableEq, Repr

/-- `str(path)`. -/
def PyPath.toStr (p : PyPath) : String := p.dir ++ "/" ++ p.stem ++ p.ext

/-- `path.with_suffix(e)`. -/
def PyPath.with_suffix (p : PyPath) (e : String) : PyPath := { p with ext := e }

/-- `str.lower()` (ASCII folding, which is what the extensions involved use). -/
def strLower (s : String) : String := String.mk (s.data.map Char.toLower)

namespace ExtensionHandler

/-- `ExtensionHandler.validate_and_correct_file`.  The filesystem reads are
abstracted: `detection` is `detect_format(file_path)`, `target_exists` is
`new_path.exists()` for the candidate renamed path, and `rename_ok` says
whether the OS-level `file_path.rename(new_path)` call succeeds (false =
raises `IOError`/`OSError`).  Returns the resulting path together with a
flag recording whether a rename was performed. -/
def validate_and_correct_file (detection : Option FormatTriple)
    (image_extensions video_extensions : List String)
    (audio_extensions : Option (List String)) (apply_rename : Bool)
    (file_path : PyPath) (target_exists : Bool) (rename_ok : Bool) :
    PyPath × Bool :=
  match detection with
  | none => (file_path, false)
  | some (_media_type, _format_name, detected_ext) =>
    let current_ext := strLower file_path.ext
    if current_ext = detected_ext then (file_path, false)
    else
      match get_correct_extension detection image_extensions video_extensions
          audio_extensions with
      | none => (file_path, false)
      | some correct_ext =>
        if current_ext = correct_ext then (file_path, false)
        else if !apply_rename then (file_path, false)
        else
          let new_path := file_path.with_suffix correct_ext
          if target_exists && new_path != file_path then (file_path, false)
          else if !rename_ok then (file_path, false)
          else (new_path, true)

end ExtensionHandler

/-! ## Extension Correction Tracker (`src/core/extension_tracker.py`) -/

/-- The tracker's internal `dict[str, tuple[str, str]]`, modelled as an
association list where the most recent `record` for a path comes first
(Python dict assignment is last-write-wins per key). -/
def Tracker := List (String × String × String)

/-- `ExtensionCorrectionTracker.record` (also `record_correction`):
`self._corrections[path_str] = (old_extension, new_extension)`. -/
def Tracker.record (t : Tracker) (file_path old_extension new_extension : String) :
    Tracker :=
  (file_path, old_extension, new_extension) :: t

/-- `ExtensionCorrectionTracker.get_correction`:
`self._corrections.get(str(file_path))`. -/
def Tracker.get_correction : Tracker → String → Option (String × String)
  | [], _ => none
  | (p, old, new) :: rest, path =>
    if p == path then some (old, new) else Tracker.get_correction rest path

/-- The downloader's post-write correction bookkeeping
(`downloader.py` lines 301-314, identically lines 139-151 and 396-411):
when `validate_and_correct_file` renamed `out_path` to `corrected_path`, the
correction is recorded keyed by the ORIGINAL `out_path` string, after which
the local `out_path` variable is rebound to the corrected path. -/
def downloadCorrectionStep (t : Tracker) (out_path corrected_path : PyPath) :
    Tracker × PyPath :=
  if corrected_path ≠ out_path then
    (t.record out_path.toStr (strLower out_path.ext) (strLower corrected_path.ext),
      corrected_path)
  else (t, out_path)

/-- The incorrect-extension counting of `scan_creator_videos`
(`video_validator.py` lines 298-303): for each visited on-disk file, the
counter is incremented exactly when the tracker holds a correction for that
file's exact path. -/
def scanIncorrectCount (t : Tracker) : List PyPath → Nat
  | [] => 0
  | f :: fs =>
    (if (t.get_correction f.toStr).isSome then 1 else 0) + scanIncorrectCount t fs

/-! ## Retry Queue (`src/core/retry_queue.py`) -/

/-- `FailedDownload` (the `ApiItem`/creator payload is irrelevant to the
queue's control flow and elided into the url/path/error fields). -/
structure FailedDownload where
  url : String
  out_path : String
  retry_count : Nat
  last_error : String
deriving DecidableEq, Repr

/-- The queue-internal state: the FIFO deque, the successful-retry counter
and the permanently-failed list. -/
structure RetryQueueState where
  queue : List FailedDownload
  successful_retries : Nat
  permanently_failed : List FailedDownload
deriving DecidableEq, Repr

/-- A freshly constructed queue. -/
def RetryQueueState.initial : RetryQueueState := ⟨[], 0, []⟩

/-- `RetryQueue.add`: appends a `FailedDownload` with `retry_count = 1` to
the tail of the queue. -/
def RetryQueueState.add (st : RetryQueueState) (url out_path error : String) :
    RetryQueueState :=
  { st with queue := st.queue ++ [⟨url, out_path, 1, error⟩] }

/-- `RetryQueue.get_stats` as `(pending, successful, failed)`. -/
def RetryQueueState.get_stats (st : RetryQueueState) : Nat × Nat × Nat :=
  (st.queue.length, st.successful_retries, st.permanently_failed.length)

/-- `RetryQueue._process_item` on an item already popped from the queue.
`success` is the download function's result; an exception raised by the
download function is caught and treated as `false`. On failure the
retry count is incremented; at `retry_count >= max_retries` the item moves
to the permanently-failed list, otherwise it is appended to the queue tail. -/
def processRetryItem (max_retries : Nat) (success : Bool) (st : RetryQueueState)
    (item : FailedDownload) : RetryQueueState :=
  if success then { st with successful_retries := st.successful_retries + 1 }
  else
    let item' := { item with retry_count := item.retry_count + 1 }
    if max_retries ≤ item'.retry_count then
      { st with permanently_failed := st.permanently_failed ++ [item'] }
    else
      { st with queue := st.queue ++ [item'] }

/-- One iteration of `RetryQueue._worker_loop`: `_get_next_item` pops the
queue head and `_process_item` handles it; an empty queue is a no-op (the
thread just sleeps). -/
def workerStep (max_retries : Nat) (download : FailedDownload → Bool)
    (st : RetryQueueState) : RetryQueueState :=
  match st.queue with
  | [] => st
  | item :: rest =>
    processRetryItem max_retries (download item) { st with queue := rest } item

/-- Run the worker loop until the queue empties (at most `fuel` iterations),
returning the final state together with the number of download attempts the
queue made. -/
def workerRun (max_retries : Nat) (download : FailedDownload → Bool) :
    Nat → RetryQueueState → RetryQueueState × Nat
  | 0, st => (st, 0)
  | fuel + 1, st =>
    match st.queue with
    | [] => (st, 0)
    | item :: rest =>
      let st' := processRetryItem max_retries (download item)
        { st with queue := rest } item
      let res := workerRun max_retries download fuel st'
      (res.1, res.2 + 1)

/-! ## Media Downloader (`src/core/downloader.py`) -/

/-- An API item as consumed by `download_files`: only the `url` field is
inspected (`item.get("url")`, absent/empty modelled as `none`). -/
structure ApiItem where
  url : Option String
deriving DecidableEq, Repr

/-- Outcome of one download attempt (steps 3-6 of the per-item algorithm),
as observed by the surrounding `try`/`except`:
* `success corrected`: the body ran to completion; `corrected` is the
  post-rename path when `validate_and_correct_file` corrected the extension
  (`none` = no correction, the file sits at the resolved output path);
* `failure msg partialWritten`: an ordinary exception was raised;
  `partialWritten` says whether a partial output file existed at that point;
* `interrupted partialWritten`: a `KeyboardInterrupt` was raised. -/
inductive NetOutcome where
  | success (corrected : Option String)
  | failure (msg : String) (partialWritten : Bool)
  | interrupted (partialWritten : Bool)
deriving DecidableEq, Repr

/-- Observable downloader events: HTTP requests, file writes, renames and
deletions. -/
inductive DLEvent where
  | netRequest (url : String)
  | fileWrite (path : String)
  | fileRename (src dst : String)
  | fileDelete (path : String)
deriving DecidableEq, Repr

/-- Downloader state threaded through `download_files`: the set of existing
files, the retry queue's pending items (url, out_path, error), the event log
and the `successful_downloads` counter. -/
structure DLState where
  fs : List String
  retry_queue : List (String × String × String)
  events : List DLEvent
  successful : Nat
deriving DecidableEq, Repr

/-- One iteration of the `for item in items` loop of
`MediaDownloader.download_files` (lines 228-492).  The collaborators are
abstracted: `updateUrl` is `update_video_url`, `getOut` is
`file_manager.get_output_path(creator, url)`, and `env` gives the outcome of
the attempt for a download URL.  Returns the new state and whether the batch
was aborted (`KeyboardInterrupt` re-raised).  Mirrors the code:
* no/empty url: skip the item;
* destination path exists: skip the item (no request, no write);
* success: file written (and possibly renamed by extension correction),
  `successful_downloads` incremented;
* exception: partial file deleted if present, item enqueued to the retry
  queue when enabled, loop continues;
* interrupt: partial file deleted, exception re-raised (batch aborted). -/
def processDLItem (enable_retry_queue : Bool) (updateUrl : String → String)
    (getOut : String → PyPath) (env : String → NetOutcome) (st : DLState)
    (item : ApiItem) : DLState × Bool :=
  match item.url with
  | none => (st, false)
  | some url =>
    let durl := updateUrl url
    let outS := (getOut durl).toStr
    if st.fs.contains outS then (st, false)
    else
      match env durl with
      | .success corrected =>
        let final := corrected.getD outS
        ({ st with
            fs := final :: st.fs
            events := st.events ++ [.netRequest durl, .fileWrite outS] ++
              (match corrected with
               | some c => [.fileRename outS c]
               | none => [])
            successful := st.successful + 1 }, false)
      | .failure msg partialWritten =>
        ({ st with
            events := st.events ++ [.netRequest durl] ++
              (if partialWritten then [.fileWrite outS, .fileDelete outS] else [])
            retry_queue :=
              if enable_retry_queue then st.retry_queue ++ [(durl, outS, msg)]
              else st.retry_queue }, false)
      | .interrupted partialWritten =>
        ({ st with
            events := st.events ++ [.netRequest durl] ++
              (if partialWritten then [.fileWrite outS, .fileDelete outS]
               else []) }, true)

/-- `MediaDownloader.download_files` over a batch of items: processes items
in order; a `KeyboardInterrupt` aborts the remainder of the batch, any other
per-item failure lets the loop continue. -/
def download_files (enable_retry_queue : Bool) (updateUrl : String → String)
    (getOut : String → PyPath) (env : String → NetOutcome) :
    List ApiItem → DLState → DLState × Bool
  | [], st => (st, false)
  | item :: rest, st =>
    let step := processDLItem enable_retry_queue updateUrl getOut env st item
    if step.2 then (step.1, true)
    else download_files enable_retry_queue updateUrl getOut env rest step.1

/-! ## Repair Manager (`src/core/repair_manager.py`) -/

/-- One entry of the invalid-videos report (only the fields `repair_videos`
reads). -/
structure RepairEntry where
  filename : String
  path : String
deriving DecidableEq, Repr

/-- Whether one entry's redownload succeeds: `repair_videos` calls
`downloader.download_files([item], creator, ...)` and counts the entry as
succeeded iff no exception escapes and the returned `total_downloaded > 0`.
`redl creator filename = none` models an escaping exception (caught by the
`except` and not counted), `some n` the returned `total_downloaded`. -/
def entrySucceeded (redl : String → String → Option Nat) (creator : String)
    (e : RepairEntry) : Bool :=
  match redl creator e.filename with
  | none => false
  | some n => decide (0 < n)

/-- Count of succeeded entries for one creator's list. -/
def countSucceeded (redl : String → String → Option Nat) (creator : String)
    (entries : List RepairEntry) : Nat :=
  (entries.filter (entrySucceeded redl creator)).length

/-- `RepairManager.repair_videos` on a successfully loaded report
(`creators` is the parsed `report["creators"]` in iteration order), with the
per-entry download outcomes abstracted into `redl` and the confirmation
prompt into `confirmed` (true when `auto_yes` or the user confirms).
Returns `(total_videos, total_succeeded, report_deleted)` where
`report_deleted` says whether the report file was removed at the end
(the `unlink` itself is assumed to not raise).  Mirrors lines 184-290:
empty `creators` or a declined confirmation returns `(0, 0)` with the
report kept; otherwise the report is deleted iff
`total_succeeded == total_videos and total_videos > 0`. -/
def repair_videos (redl : String → String → Option Nat) (confirmed : Bool)
    (creators : List (String × List RepairEntry)) : Nat × Nat × Bool :=
  if creators.isEmpty then (0, 0, false)
  else if !confirmed then (0, 0, false)
  else
    let total_videos := (creators.map (fun c => c.2.length)).sum
    let total_succeeded := (creators.map (fun c => countSucceeded redl c.1 c.2)).sum
    (total_videos, total_succeeded,
      total_succeeded == total_videos && decide (0 < total_videos))

/-! ## Helper lemmas -/

theorem pytake_nil (n : Nat) : pytake n [] = [] := by
  cases n <;> rfl

theorem pydrop_nil (n : Nat) : pydrop n [] = [] := by
  cases n <;> rfl

theorem pytake_pytake (m n : Nat) (l : List Nat) :
    pytake m (pytake n l) = pytake (min m n) l := by
  induction l generalizing m n with
  | nil => simp [pytake_nil]
  | cons a l ih =>
    cases m with
    | zero => cases n <;> rfl
    | succ m =>
      cases n with
      | zero => rfl
      | succ n =>
        simp only [pytake, Nat.succ_min_succ, ih]

theorem pydrop_pytake (m n : Nat) (l : List Nat) :
    pydrop m (pytake n l) = pytake (n - m) (pydrop m l) := by
  induction l generalizing m n with
  | nil => simp [pytake_nil, pydrop_nil]
  | cons a l ih =>
    cases m with
    | zero => rfl
    | succ m =>
      cases n with
      | zero => simp [pytake, pydrop, pytake_nil, pydrop_nil]
      | succ n =>
        simp only [pytake, pydrop, Nat.succ_sub_succ, ih]

theorem pytake_append_of_le (n : Nat) (l₁ l₂ : List Nat) (h : l₁.length ≤ n) :
    pytake n (l₁ ++ l₂) = l₁ ++ pytake (n - l₁.length) l₂ := by
  induction l₁ generalizing n with
  | nil => simp
  | cons a l ih =>
    cases n with
    | zero => simp at h
    | succ n =>
      simp only [List.cons_append, pytake, List.length_cons, Nat.succ_sub_succ,
        List.append_eq]
      rw [ih n (by simpa using h)]

theorem workerRun_empty_queue (mr : Nat) (d : FailedDownload → Bool) (fuel s : Nat)
    (p : List FailedDownload) :
    workerRun mr d fuel ⟨[], s, p⟩ = (⟨[], s, p⟩, 0) := by
  cases fuel <;> rfl

theorem workerRun_single_fail (mr : Nat) (u o e : String) :
    ∀ fuel r s p, 1 ≤ fuel → mr ≤ r + fuel →
    workerRun mr (fun _ => false) fuel ⟨[⟨u, o, r, e⟩], s, p⟩ =
      (⟨[], s, p ++ [⟨u, o, max (r + 1) mr, e⟩]⟩, max 1 (mr - r)) := by
  intro fuel
  induction fuel with
  | zero => intro r s p h1 _; exact absurd h1 (by omega)
  | succ f ih =>
    intro r s p _ h2
    by_cases hc : mr ≤ r + 1
    · have hmax1 : max (r + 1) mr = r + 1 := Nat.max_eq_left hc
      have hmax2 : max 1 (mr - r) = 1 := Nat.max_eq_left (by omega)
      simp [workerRun, processRetryItem, hc, workerRun_empty_queue, hmax1, hmax2]
    · have hf : 1 ≤ f := by omega
      have hmr : mr ≤ (r + 1) + f := by omega
      have hmax1 : max (r + 1) mr = mr := Nat.max_eq_right (by omega)
      have hmax2 : max (r + 1 + 1) mr = mr := Nat.max_eq_right (by omega)
      have hmax3 : max 1 (mr - (r + 1)) + 1 = max 1 (mr - r) := by
        rcases Nat.le_total mr (r + 1) with h | h
        · omega
        · have := Nat.max_eq_right (a := 1) (b := mr - r) (by omega)
          omega
      simp only [workerRun, processRetryItem, Bool.false_eq_true, if_neg hc,
        List.nil_append, if_false]
      rw [ih (r + 1) s p hf hmr]
      simp [hmax1, hmax2, hmax3]

/-! ## Claim theorems -/

/-- Claim C1 (counterexample): with `max_retries = 3` and a download function
that always fails, an item added to the queue with `retry_count = 1`
undergoes exactly 2 download attempts by the queue — not 3 as the claim
states — before landing in `permanently_failed`. -/
theorem retry_attempts_counterexample :
    (workerRun 3 (fun _ => false) 4 (RetryQueueState.initial.add "u" "p" "err")).2 = 2 ∧
    (2 : Nat) ≠ 3 := by
  constructor
  · rfl
  · decide

/-- Claim C1 (amended): for every `max_retries = N` and an always-failing
download function, an item added to the queue (entering with
`retry_count = 1`) undergoes exactly `max (N - 1) 1` download attempts by the
queue (so `N` attempts in total for `N ≥ 2`, counting the initial failed
download that enqueued it), after which it sits in `permanently_failed` with
`retry_count = max 2 N`, `get_stats` reports `pending = 0`,
`successful = 0` and `failed = 1`, and a further worker iteration leaves the
state unchanged (the item is never attempted again). -/
theorem retry_queue_termination (N : Nat) (u o e : String) :
    workerRun N (fun _ => false) (N + 1) (RetryQueueState.initial.add u o e) =
      (⟨[], 0, [⟨u, o, max 2 N, e⟩]⟩, max (N - 1) 1) ∧
    RetryQueueState.get_stats
      (workerRun N (fun _ => false) (N + 1) (RetryQueueState.initial.add u o e)).1 =
      (0, 0, 1) ∧
    workerStep N (fun _ => false)
      (workerRun N (fun _ => false) (N + 1) (RetryQueueState.initial.add u o e)).1 =
      (workerRun N (fun _ => false) (N + 1) (RetryQueueState.initial.add u o e)).1 := by
  have h := workerRun_single_fail N u o e (N + 1) 1 0 [] (by omega) (by omega)
  have hq : RetryQueueState.initial.add u o e =
      (⟨[⟨u, o, 1, e⟩], 0, []⟩ : RetryQueueState) := rfl
  rw [hq] at *
  have hmax : max (1 + 1) N = max 2 N := by norm_num
  have hmax2 : max 1 (N - 1) = max (N - 1) 1 := Nat.max_comm _ _
  rw [h, hmax, hmax2]
  refine ⟨rfl, rfl, rfl⟩

/-- Claim C2: `validate_video` decides validity in the stated order: an
image codec (webp/png/jpeg/mjpeg/gif/bmp) is invalid; otherwise `vp9` is
always valid regardless of duration and frames; otherwise `duration ≤ 0` is
invalid; otherwise `frames ≤ 1` is invalid; otherwise valid — and the four
concrete boundary instances hold. -/
theorem validate_video_policy :
    (∀ i : ProbeInfo, i.codec ∈ IMAGE_CODECS → (validate_video (some i)).1 = false) ∧
    (∀ i : ProbeInfo, i.codec = "vp9" → (validate_video (some i)).1 = true) ∧
    (∀ i : ProbeInfo, i.codec ∉ IMAGE_CODECS → i.codec ≠ "vp9" → i.duration ≤ 0 →
      (validate_video (some i)).1 = false) ∧
    (∀ i : ProbeInfo, i.codec ∉ IMAGE_CODECS → i.codec ≠ "vp9" → 0 < i.duration →
      i.frames ≤ 1 → (validate_video (some i)).1 = false) ∧
    (∀ i : ProbeInfo, i.codec ∉ IMAGE_CODECS → i.codec ≠ "vp9" → 0 < i.duration →
      1 < i.frames → (validate_video (some i)).1 = true) ∧
    (validate_video (some ⟨1, 5, "h264"⟩)).1 = false ∧
    (validate_video (some ⟨2, 5, "h264"⟩)).1 = true ∧
    (validate_video (some ⟨0, 0, "vp9"⟩)).1 = true ∧
    (validate_video (some ⟨0, 0, "h264"⟩)).1 = false := by
  refine ⟨?_, ?_, ?_, ?_, ?_, ?_, ?_, ?_, ?_⟩
  · intro i h
    simp [validate_video, h]
  · intro i h
    simp only [validate_video, h, if_pos rfl]
    rw [if_neg (show ¬("vp9" ∈ IMAGE_CODECS) by decide)]
    simp
  · intro i h1 h2 h3
    simp [validate_video, h1, h2, h3]
  · intro i h1 h2 h3 h4
    simp [validate_video, h1, h2, not_le.mpr h3, h4]
  · intro i h1 h2 h3 h4
    simp [validate_video, h1, h2, not_le.mpr h3, not_le.mpr h4]
  · decide
  · decide
  · decide
  · decide

/-- Witness for C2: the first clause applied at a concrete probe result with
an image codec. -/
theorem validate_video_policy_witness :
    ("png" ∈ IMAGE_CODECS) ∧ (validate_video (some ⟨3, 7, "png"⟩)).1 = false :=
  ⟨by decide, validate_video_policy.1 ⟨3, 7, "png"⟩ (by decide)⟩

/-- Claim C8 (counterexample): for the concrete input of a missing file,
`validate_image` returns frame count `0`, not the sentinel `1` the claim
promises for every path; likewise when sniffing fails. -/
theorem validate_image_counterexample :
    validate_image false none = (false, 0, 0) ∧
    (validate_image false none).2.1 ≠ 1 ∧
    (validate_image true none).2.1 ≠ 1 := by
  refine ⟨rfl, by decide, by decide⟩

/-- Claim C8 (amended): when the file exists and the Format Sniffer returns
a detection, `validate_image` returns frame count fixed at `1` and duration
fixed at `0`, with `is_valid` true exactly when the sniffed media kind is
`image`; when the file is missing or the sniffer cannot determine a format
(or an IO error occurs), it returns `(false, 0, 0)`. -/
theorem validate_image_spec :
    (∀ d : FormatTriple, validate_image true (some d) = ((d.1 == "image"), 1, 0)) ∧
    (∀ d : FormatTriple, ((validate_image true (some d)).1 = true ↔ d.1 = "image")) ∧
    (∀ d : Option FormatTriple, validate_image false d = (false, 0, 0)) ∧
    validate_image true none = (false, 0, 0) := by
  refine ⟨fun d => rfl, fun d => ?_, fun d => rfl, rfl⟩
  simp [validate_image]

/-- Claim C7: `validate_and_correct_file` returns the input path unchanged
(and performs no rename) whenever sniffing fails, or the current extension
already equals the sniffed canonical extension, or no configured correct
extension is determined, or `apply_rename` is false; when renaming, it
returns the original path if a file already exists at the target name or
the OS rename fails, and returns the new path only on a successful in-place
rename. -/
theorem validate_and_correct_file_spec :
    (∀ ie ve ae ar p te ro,
      ExtensionHandler.validate_and_correct_file none ie ve ae ar p te ro =
        (p, false)) ∧
    (∀ (d : FormatTriple) ie ve ae ar p te ro, strLower p.ext = d.2.2 →
      ExtensionHandler.validate_and_correct_file (some d) ie ve ae ar p te ro =
        (p, false)) ∧
    (∀ (d : FormatTriple) ie ve ae ar p te ro,
      ExtensionHandler.get_correct_extension (some d) ie ve ae = none →
      ExtensionHandler.validate_and_correct_file (some d) ie ve ae ar p te ro =
        (p, false)) ∧
    (∀ (d : FormatTriple) ie ve ae p te ro,
      ExtensionHandler.validate_and_correct_file (some d) ie ve ae false p te ro =
        (p, false)) ∧
    (∀ (d : FormatTriple) ie ve ae p ro c,
      ExtensionHandler.get_correct_extension (some d) ie ve ae = some c →
      p.with_suffix c ≠ p →
      ExtensionHandler.validate_and_correct_file (some d) ie ve ae true p true ro =
        (p, false)) ∧
    (∀ (d : FormatTriple) ie ve ae p te,
      ExtensionHandler.validate_and_correct_file (some d) ie ve ae true p te false =
        (p, false)) ∧
    (∀ (d : FormatTriple) ie ve ae p c,
      strLower p.ext ≠ d.2.2 →
      ExtensionHandler.get_correct_extension (some d) ie ve ae = some c →
      strLower p.ext ≠ c →
      ExtensionHandler.validate_and_correct_file (some d) ie ve ae true p false true =
        (p.with_suffix c, true)) ∧
    (∀ dd ie ve ae ar p te ro,
      (ExtensionHandler.validate_and_correct_file dd ie ve ae ar p te ro).2 = false →
      (ExtensionHandler.validate_and_correct_file dd ie ve ae ar p te ro).1 = p) ∧
    (∀ dd ie ve ae ar p te ro,
      (ExtensionHandler.validate_and_correct_file dd ie ve ae ar p te ro).2 = true →
      ar = true ∧ ro = true) := by
  refine ⟨?_, ?_, ?_, ?_, ?_, ?_, ?_, ?_, ?_⟩
  · intro ie ve ae ar p te ro
    rfl
  · rintro ⟨mt, fn, de⟩ ie ve ae ar p te ro h
    simp only [ExtensionHandler.validate_and_correct_file, if_pos h]
  · rintro ⟨mt, fn, de⟩ ie ve ae ar p te ro h
    simp only [ExtensionHandler.validate_and_correct_file, h]
    split_ifs <;> rfl
  · rintro ⟨mt, fn, de⟩ ie ve ae p te ro
    simp only [ExtensionHandler.validate_and_correct_file]
    rcases hg : ExtensionHandler.get_correct_extension (some (mt, fn, de)) ie ve ae
      with _ | c <;> dsimp only <;> split_ifs <;> simp_all
  · rintro ⟨mt, fn, de⟩ ie ve ae p ro c hg hne
    simp only [ExtensionHandler.validate_and_correct_file, hg]
    split_ifs with h1 h2 h3 h4 <;> try rfl
    exact absurd h4 (by simp [hne])
  · rintro ⟨mt, fn, de⟩ ie ve ae p te
    simp only [ExtensionHandler.validate_and_correct_file]
    rcases hg : ExtensionHandler.get_correct_extension (some (mt, fn, de)) ie ve ae
      with _ | c <;> dsimp only <;> split_ifs <;> simp_all
  · rintro ⟨mt, fn, de⟩ ie ve ae p c h1 hg h2
    simp only [ExtensionHandler.validate_and_correct_file, hg, if_neg h1]
    rw [if_neg h2]
    simp
  · rintro (_ | ⟨mt, fn, de⟩) ie ve ae ar p te ro
    · intro _
      rfl
    · simp only [ExtensionHandler.validate_and_correct_file]
      rcases hg : ExtensionHandler.get_correct_extension (some (mt, fn, de)) ie ve ae
        with _ | c <;> dsimp only <;> split_ifs <;> simp_all
  · rintro (_ | ⟨mt, fn, de⟩) ie ve ae ar p te ro
    · intro h
      exact absurd h (by simp [ExtensionHandler.validate_and_correct_file])
    · simp only [ExtensionHandler.validate_and_correct_file]
      rcases hg : ExtensionHandler.get_correct_extension (some (mt, fn, de)) ie ve ae
        with _ | c <;> dsimp only <;> split_ifs <;> simp_all

/-- Witness for C7: the no-op clauses and the success clause evaluated at
concrete inputs. -/
theorem validate_and_correct_file_spec_witness :
    ExtensionHandler.validate_and_correct_file none [".png"] [".mp4"] none true
      ⟨"d", "f", ".mp4"⟩ false true = (⟨"d", "f", ".mp4"⟩, false) ∧
    ExtensionHandler.validate_and_correct_file (some ("image", "WebP", ".webp"))
      [".webp"] [".mp4"] none true ⟨"d", "f", ".mp4"⟩ false true =
      (⟨"d", "f", ".webp"⟩, true) :=
  ⟨validate_and_correct_file_spec.1 [".png"] [".mp4"] none true ⟨"d", "f", ".mp4"⟩
      false true,
    validate_and_correct_file_spec.2.2.2.2.2.2.1 ("image", "WebP", ".webp")
      [".webp"] [".mp4"] none ⟨"d", "f", ".mp4"⟩ ".webp" (by decide) (by decide)
      (by decide)⟩

theorem list_contains_of_mem {l : List String} {a : String} (h : a ∈ l) :
    l.contains a = true :=
  List.elem_eq_true_of_mem h

theorem list_contains_eq_false_of_not_mem {l : List String} {a : String}
    (h : a ∉ l) : l.contains a = false := by
  rcases hb : l.contains a with _ | _
  · rfl
  · exact absurd (List.elem_iff.mp hb) h

/-- Claim C6 (counterexample): a download-time correction renaming
`C/Videos/a.mp4` to `C/Videos/a.webp` is recorded in the tracker under the
pre-rename path; a later scan visits the renamed on-disk file and queries
the tracker by its exact path `C/Videos/a.webp`, finds nothing, and does not
increment the incorrect-extension counter — so the correction is not
recorded under a path by which a later scan of the renamed file can find
it. -/
theorem scan_correction_counterexample :
    (downloadCorrectionStep [] ⟨"C/Videos", "a", ".mp4"⟩ ⟨"C/Videos", "a", ".webp"⟩).2 =
      ⟨"C/Videos", "a", ".webp"⟩ ∧
    Tracker.get_correction
      (downloadCorrectionStep [] ⟨"C/Videos", "a", ".mp4"⟩ ⟨"C/Videos", "a", ".webp"⟩).1
      (PyPath.toStr ⟨"C/Videos", "a", ".webp"⟩) = none ∧
    scanIncorrectCount
      (downloadCorrectionStep [] ⟨"C/Videos", "a", ".mp4"⟩ ⟨"C/Videos", "a", ".webp"⟩).1
      [⟨"C/Videos", "a", ".webp"⟩] = 0 := by
  refine ⟨by decide, by decide, by decide⟩

/-- Claim C6 (amended): for every file visited by `scan_creator_videos`, the
incorrect-extension counter is incremented for that file exactly when the
Tracker holds a recorded correction for that file's exact on-disk path;
however, the download-time correction is recorded under the file's
pre-rename path (the original resolved output path), not under the renamed
path, and tracker lookups at any other path — in particular at the renamed
on-disk path a later scan queries — are unaffected by that recording. -/
theorem scan_correction_spec :
    (∀ (t : Tracker) (fs : List PyPath), scanIncorrectCount t fs =
      (fs.filter (fun f => (t.get_correction f.toStr).isSome)).length) ∧
    (∀ (t : Tracker) (out corr : PyPath), corr ≠ out →
      (downloadCorrectionStep t out corr).2 = corr ∧
      (downloadCorrectionStep t out corr).1.get_correction out.toStr =
        some (strLower out.ext, strLower corr.ext) ∧
      (∀ q, q ≠ out.toStr →
        (downloadCorrectionStep t out corr).1.get_correction q =
          t.get_correction q)) := by
  constructor
  · intro t fs
    induction fs with
    | nil => rfl
    | cons f fs ih =>
      rcases hc : (t.get_correction f.toStr).isSome with _ | _ <;>
        simp [scanIncorrectCount, List.filter, hc, ih, Nat.add_comm]
  · intro t out corr hne
    refine ⟨?_, ?_, ?_⟩
    · simp [downloadCorrectionStep, hne]
    · simp [downloadCorrectionStep, hne, Tracker.record, Tracker.get_correction]
    · intro q hq
      simp only [downloadCorrectionStep, if_pos hne, Tracker.record,
        Tracker.get_correction]
      rw [if_neg (by simpa [beq_iff_eq] using fun h => hq h.symm)]

/-- Witness for C6: the amended theorem applied to a concrete download-time
correction and a concrete lookup at the renamed path. -/
theorem scan_correction_spec_witness :
    (downloadCorrectionStep [] ⟨"d", "b", ".mp4"⟩ ⟨"d", "b", ".webm"⟩).2 =
      ⟨"d", "b", ".webm"⟩ ∧
    (downloadCorrectionStep [] ⟨"d", "b", ".mp4"⟩ ⟨"d", "b", ".webm"⟩).1.get_correction
      (PyPath.toStr ⟨"d", "b", ".mp4"⟩) =
      some (strLower ".mp4", strLower ".webm") ∧
    (downloadCorrectionStep [] ⟨"d", "b", ".mp4"⟩ ⟨"d", "b", ".webm"⟩).1.get_correction
      (PyPath.toStr ⟨"d", "b", ".webm"⟩) =
      Tracker.get_correction [] (PyPath.toStr ⟨"d", "b", ".webm"⟩) :=
  ⟨(scan_correction_spec.2 [] _ _ (by decide)).1,
    (scan_correction_spec.2 [] _ _ (by decide)).2.1,
    (scan_correction_spec.2 [] _ _ (by decide)).2.2 _ (by decide)⟩

/-- Claim C4: an item whose resolved destination path already exists on disk
is skipped by `download_files` with no network request and no file write
(the state, including the event log, is untouched and processing moves to
the next item); a batch all of whose resolved destination paths exist
leaves the state unchanged; hence calling `download_files` twice with the
same items and creator writes each file at most once as long as the first
call's output paths still exist. -/
theorem download_skip_existing (erq : Bool) (uu : String → String)
    (go : String → PyPath) (env : String → NetOutcome) :
    (∀ st item url, item.url = some url → (go (uu url)).toStr ∈ st.fs →
      processDLItem erq uu go env st item = (st, false)) ∧
    (∀ items st,
      (∀ item ∈ items, ∀ url, item.url = some url → (go (uu url)).toStr ∈ st.fs) →
      download_files erq uu go env items st = (st, false)) ∧
    (∀ items st₀,
      (∀ item ∈ items, ∀ url, item.url = some url →
        (go (uu url)).toStr ∈ (download_files erq uu go env items st₀).1.fs) →
      download_files erq uu go env items (download_files erq uu go env items st₀).1 =
        ((download_files erq uu go env items st₀).1, false)) := by
  have skip : ∀ st item url, item.url = some url → (go (uu url)).toStr ∈ st.fs →
      processDLItem erq uu go env st item = (st, false) := by
    rintro st ⟨ourl⟩ url h hmem
    cases h
    simp only [processDLItem, list_contains_of_mem hmem, if_true]
  have batch : ∀ items st,
      (∀ item ∈ items, ∀ url, item.url = some url → (go (uu url)).toStr ∈ st.fs) →
      download_files erq uu go env items st = (st, false) := by
    intro items
    induction items with
    | nil => intro st _; rfl
    | cons item rest ih =>
      intro st h
      have hstep : processDLItem erq uu go env st item = (st, false) := by
        rcases item with ⟨_ | url⟩
        · rfl
        · exact skip st ⟨some url⟩ url rfl (h ⟨some url⟩ (by simp) url rfl)
      simp only [download_files, hstep]
      exact ih st (fun it hit u hu => h it (by simp [hit]) u hu)
  exact ⟨skip, batch, fun items st₀ h => batch items _ h⟩

/-- Witness for C4: a one-item batch whose destination already exists is a
no-op. -/
theorem download_skip_existing_witness :
    download_files true id (fun u => ⟨"out", u, ".mp4"⟩)
      (fun _ => NetOutcome.failure "boom" false) [⟨some "x"⟩]
      ⟨[PyPath.toStr ⟨"out", "x", ".mp4"⟩], [], [], 0⟩ =
      (⟨[PyPath.toStr ⟨"out", "x", ".mp4"⟩], [], [], 0⟩, false) :=
  (download_skip_existing true id (fun u => ⟨"out", u, ".mp4"⟩)
      (fun _ => NetOutcome.failure "boom" false)).2.1 [⟨some "x"⟩] _
    (by intro item hit u hu
        simp at hit
        subst hit
        simp at hu
        subst hu
        simp)

/-- Claim C9: every ordinary exception during one item's download is caught
per item: the partial output file, if present, is deleted (the filesystem
and success counter are unchanged), a `FailedDownload` is enqueued exactly
when the retry queue is enabled, and the batch continues with the remaining
items; a user interrupt likewise deletes the partial file but re-raises,
aborting the batch without touching the remaining items. -/
theorem download_failure_handling (erq : Bool) (uu : String → String)
    (go : String → PyPath) (env : String → NetOutcome) :
    (∀ st item rest url msg pw, item.url = some url →
      (go (uu url)).toStr ∉ st.fs → env (uu url) = .failure msg pw →
      (processDLItem erq uu go env st item).2 = false ∧
      (processDLItem erq uu go env st item).1.fs = st.fs ∧
      (processDLItem erq uu go env st item).1.successful = st.successful ∧
      (processDLItem erq uu go env st item).1.retry_queue =
        (if erq then st.retry_queue ++ [(uu url, (go (uu url)).toStr, msg)]
         else st.retry_queue) ∧
      (pw = true → (processDLItem erq uu go env st item).1.events =
        st.events ++ [.netRequest (uu url), .fileWrite (go (uu url)).toStr,
          .fileDelete (go (uu url)).toStr]) ∧
      (pw = false → (processDLItem erq uu go env st item).1.events =
        st.events ++ [.netRequest (uu url)]) ∧
      download_files erq uu go env (item :: rest) st =
        download_files erq uu go env rest (processDLItem erq uu go env st item).1) ∧
    (∀ st item rest url pw, item.url = some url →
      (go (uu url)).toStr ∉ st.fs → env (uu url) = .interrupted pw →
      download_files erq uu go env (item :: rest) st =
        ({ st with events := st.events ++ [.netRequest (uu url)] ++
            (if pw then [.fileWrite (go (uu url)).toStr,
                         .fileDelete (go (uu url)).toStr] else []) }, true)) := by
  constructor
  · rintro st ⟨ourl⟩ rest url msg pw h hmem henv
    cases h
    refine ⟨?_, ?_, ?_, ?_, ?_, ?_, ?_⟩
    · simp [processDLItem, hmem, henv]
    · simp [processDLItem, hmem, henv]
    · simp [processDLItem, hmem, henv]
    · simp [processDLItem, hmem, henv]
    · rintro rfl
      simp [processDLItem, hmem, henv]
    · rintro rfl
      simp [processDLItem, hmem, henv]
    · simp [download_files, processDLItem, hmem, henv]
  · rintro st ⟨ourl⟩ rest url pw h hmem henv
    cases h
    simp [download_files, processDLItem, hmem, henv]

/-- Witness for C9: a concrete failing item followed by a skipped item, and
a concrete interrupted item. -/
theorem download_failure_handling_witness :
    download_files true id (fun u => ⟨"o", u, ".mp4"⟩)
      (fun _ => NetOutcome.failure "timeout" true) [⟨some "x"⟩] ⟨[], [], [], 0⟩ =
      download_files true id (fun u => ⟨"o", u, ".mp4"⟩)
        (fun _ => NetOutcome.failure "timeout" true) []
        (processDLItem true id (fun u => ⟨"o", u, ".mp4"⟩)
          (fun _ => NetOutcome.failure "timeout" true) ⟨[], [], [], 0⟩ ⟨some "x"⟩).1 ∧
    download_files false id (fun u => ⟨"o", u, ".mp4"⟩)
      (fun _ => NetOutcome.interrupted false) [⟨some "y"⟩, ⟨some "z"⟩]
      ⟨[], [], [], 0⟩ =
      (⟨[], [], [DLEvent.netRequest "y"], 0⟩, true) := by
  constructor
  · exact ((download_failure_handling true id (fun u => ⟨"o", u, ".mp4"⟩)
      (fun _ => NetOutcome.failure "timeout" true)).1 ⟨[], [], [], 0⟩ ⟨some "x"⟩ []
      "x" "timeout" true rfl (by simp) rfl).2.2.2.2.2.2
  · have h := (download_failure_handling false id (fun u => ⟨"o", u, ".mp4"⟩)
      (fun _ => NetOutcome.interrupted false)).2 ⟨[], [], [], 0⟩ ⟨some "y"⟩
      [⟨some "z"⟩] "y" false rfl (by simp) rfl
    simpa using h

theorem countSucceeded_le (redl : String → String → Option Nat) (creator : String)
    (entries : List RepairEntry) :
    countSucceeded redl creator entries ≤ entries.length :=
  List.length_filter_le _ _

theorem sum_countSucceeded_le (redl : String → String → Option Nat)
    (creators : List (String × List RepairEntry)) :
    (creators.map (fun c => countSucceeded redl c.1 c.2)).sum ≤
      (creators.map (fun c => c.2.length)).sum := by
  induction creators with
  | nil => simp
  | cons c cs ih =>
    simp only [List.map_cons, List.sum_cons]
    exact Nat.add_le_add (countSucceeded_le redl c.1 c.2) ih

theorem sum_countSucceeded_eq_iff (redl : String → String → Option Nat)
    (creators : List (String × List RepairEntry)) :
    ((creators.map (fun c => countSucceeded redl c.1 c.2)).sum =
        (creators.map (fun c => c.2.length)).sum) ↔
      (∀ c ∈ creators, ∀ e ∈ c.2, entrySucceeded redl c.1 e = true) := by
  induction creators with
  | nil => simp
  | cons c cs ih =>
    simp only [List.map_cons, List.sum_cons, List.mem_cons, forall_eq_or_imp]
    have h1 := countSucceeded_le redl c.1 c.2
    have h2 := sum_countSucceeded_le redl cs
    constructor
    · intro h
      have he : countSucceeded redl c.1 c.2 = c.2.length ∧
          (cs.map (fun c => countSucceeded redl c.1 c.2)).sum =
            (cs.map (fun c => c.2.length)).sum := by omega
      exact ⟨List.filter_length_eq_length.mp he.1, ih.mp he.2⟩
    · rintro ⟨ha, hb⟩
      rw [show countSucceeded redl c.1 c.2 = c.2.length from
        List.filter_length_eq_length.mpr ha, ih.mpr hb]

/-- Claim C5: after `repair_videos` processes a loaded, confirmed,
non-empty report (at least one invalid-video entry across the creators),
the report file is deleted if and only if every entry across the whole
report was successfully redownloaded; in particular, if at least one
entry's redownload failed, the report file still exists afterward. -/
theorem repair_report_cleanup (redl : String → String → Option Nat)
    (creators : List (String × List RepairEntry))
    (htotal : 0 < (creators.map (fun c => c.2.length)).sum) :
    ((repair_videos redl true creators).2.2 = true ↔
      ∀ c ∈ creators, ∀ e ∈ c.2, entrySucceeded redl c.1 e = true) ∧
    (∀ c ∈ creators, ∀ e ∈ c.2, entrySucceeded redl c.1 e = false →
      (repair_videos redl true creators).2.2 = false) := by
  have hne : creators.isEmpty = false := by
    cases creators
    · simp at htotal
    · rfl
  have hrepair : (repair_videos redl true creators).2.2 =
      (((creators.map (fun c => countSucceeded redl c.1 c.2)).sum ==
        (creators.map (fun c => c.2.length)).sum) &&
        decide (0 < (creators.map (fun c => c.2.length)).sum)) := by
    simp [repair_videos, hne]
  constructor
  · rw [hrepair]
    simp only [Bool.and_eq_true, beq_iff_eq, decide_eq_true_eq]
    rw [← sum_countSucceeded_eq_iff redl creators]
    exact ⟨fun h => h.1, fun h => ⟨h, htotal⟩⟩
  · intro c hc e he hfail
    rw [hrepair]
    have : ¬ (∀ c ∈ creators, ∀ e ∈ c.2, entrySucceeded redl c.1 e = true) := by
      intro hall
      rw [hall c hc e he] at hfail
      exact Bool.true_eq_false.mp hfail |>.elim
    rcases hres : ((creators.map (fun c => countSucceeded redl c.1 c.2)).sum ==
        (creators.map (fun c => c.2.length)).sum) with _ | _
    · simp
    · exact absurd ((sum_countSucceeded_eq_iff redl creators).mp
        (by simpa using hres)) this

/-- Witness for C5: a one-creator, one-entry report whose entry fails keeps
the report, and the same report with a succeeding entry deletes it. -/
theorem repair_report_cleanup_witness :
    ((repair_videos (fun _ _ => some 0) true [("alice", [⟨"v.mp4", "p/v.mp4"⟩])]).2.2 =
        false) ∧
    ((repair_videos (fun _ _ => some 1) true [("alice", [⟨"v.mp4", "p/v.mp4"⟩])]).2.2 =
        true) := by
  constructor
  · exact (repair_report_cleanup (fun _ _ => some 0)
      [("alice", [⟨"v.mp4", "p/v.mp4"⟩])] (by decide)).2
      ("alice", [⟨"v.mp4", "p/v.mp4"⟩]) (by decide) ⟨"v.mp4", "p/v.mp4"⟩
      (by decide) (by decide)
  · exact (repair_report_cleanup (fun _ _ => some 1)
      [("alice", [⟨"v.mp4", "p/v.mp4"⟩])] (by decide)).1.mpr
      (by intro c hc e he
          simp at hc
          subst hc
          simp at he
          subst he
          decide)

namespace ExtensionHandler

theorem ftypCond_eq_false_of_slice {h : List Nat}
    (hs : (pyslice h 4 8 == ftypMagic) = false) : ftypCond h = false := by
  unfold ftypCond
  rw [hs]
  exact Bool.and_false _

theorem detect_core_flat (h : List Nat) (hne : h.isEmpty = false)
    (h1 : riffCond h = false) (h2 : ftypCond h = false) :
    detect_core h = firstMatch SIGNATURES h := by
  simp [detect_core, hne, h1, h2]

theorem detect_core_ftyp (h : List Nat) (r : FormatTriple) (hne : h.isEmpty = false)
    (h1 : riffCond h = false) (h2 : ftypCond h = true)
    (h3 : ftypLookup (pyslice h 8 12) = some r) : detect_core h = some r := by
  simp [detect_core, hne, h1, h2, h3]

theorem detect_core_riff (h : List Nat) (r : FormatTriple)
    (h1 : riffCond h = true)
    (h2 : lookupSig RIFF_SIGNATURES (pyslice h 8 12) = some r) :
    detect_core h = some r := by
  have hne : h.isEmpty = false := by
    rcases h with _ | ⟨b, h'⟩
    · simp [riffCond, riffMagic, startsWith] at h1
    · rfl
  simp [detect_core, hne, h1, h2]

theorem detect_tail_jpeg (t : List Nat)
    (hft : pyslice ([0xff, 0xd8, 0xff] ++ t) 4 8 ≠ ftypMagic) :
    detect_format ([0xff, 0xd8, 0xff] ++ t) = some ("image", "JPEG", ".jpg") := by
  have htake : pytake 512 ([0xff, 0xd8, 0xff] ++ t) =
      [0xff, 0xd8, 0xff] ++ pytake 509 t := pytake_append_of_le 512 _ t (by decide)
  show detect_core (pytake 512 ([0xff, 0xd8, 0xff] ++ t)) = _
  rw [htake]
  have hslice : (pyslice ([0xff, 0xd8, 0xff] ++ pytake 509 t) 4 8 == ftypMagic) =
      false := by
    show (pytake 4 (pydrop 1 (pytake 509 t)) == ftypMagic) = false
    rw [pydrop_pytake, pytake_pytake, (by norm_num : min 4 (509 - 1) = 4)]
    exact beq_eq_false_iff_ne.mpr hft
  rw [detect_core_flat ([0xff, 0xd8, 0xff] ++ pytake 509 t) (by rfl) (by rfl)
    (ftypCond_eq_false_of_slice hslice)]
  rfl

theorem detect_tail_png (t : List Nat) :
    detect_format ([0x89, 0x50, 0x4e, 0x47, 0x0d, 0x0a, 0x1a, 0x0a] ++ t) =
      some ("image", "PNG", ".png") := by
  have htake : pytake 512 ([0x89, 0x50, 0x4e, 0x47, 0x0d, 0x0a, 0x1a, 0x0a] ++ t) =
      [0x89, 0x50, 0x4e, 0x47, 0x0d, 0x0a, 0x1a, 0x0a] ++ pytake 504 t :=
    pytake_append_of_le 512 _ t (by decide)
  show detect_core (pytake 512 _) = _
  rw [htake]
  have hcond : ftypCond ([0x89, 0x50, 0x4e, 0x47, 0x0d, 0x0a, 0x1a, 0x0a] ++
      pytake 504 t) = false := ftypCond_eq_false_of_slice rfl
  rw [detect_core_flat ([0x89, 0x50, 0x4e, 0x47, 0x0d, 0x0a, 0x1a, 0x0a] ++
    pytake 504 t) (by rfl) (by rfl) hcond]
  rfl

theorem detect_tail_gif87 (t : List Nat) :
    detect_format ([0x47, 0x49, 0x46, 0x38, 0x37, 0x61] ++ t) = some ("image", "GIF", ".gif") := by
  have htake : pytake 512 ([0x47, 0x49, 0x46, 0x38, 0x37, 0x61] ++ t) = [0x47, 0x49, 0x46, 0x38, 0x37, 0x61] ++ pytake 506 t :=
    pytake_append_of_le 512 _ t (by decide)
  show detect_core (pytake 512 _) = _
  rw [htake]
  have hcond : ftypCond ([0x47, 0x49, 0x46, 0x38, 0x37, 0x61] ++ pytake 506 t) = false :=
    ftypCond_eq_false_of_slice rfl
  rw [detect_core_flat ([0x47, 0x49, 0x46, 0x38, 0x37, 0x61] ++ pytake 506 t) (by rfl) (by rfl) hcond]
  rfl

theorem detect_tail_gif89 (t : List Nat) :
    detect_format ([0x47, 0x49, 0x46, 0x38, 0x39, 0x61] ++ t) = some ("image", "GIF", ".gif") := by
  have htake : pytake 512 ([0x47, 0x49, 0x46, 0x38, 0x39, 0x61] ++ t) = [0x47, 0x49, 0x46, 0x38, 0x39, 0x61] ++ pytake 506 t :=
    pytake_append_of_le 512 _ t (by decide)
  show detect_core (pytake 512 _) = _
  rw [htake]
  have hcond : ftypCond ([0x47, 0x49, 0x46, 0x38, 0x39, 0x61] ++ pytake 506 t) = false :=
    ftypCond_eq_false_of_slice rfl
  rw [detect_core_flat ([0x47, 0x49, 0x46, 0x38, 0x39, 0x61] ++ pytake 506 t) (by rfl) (by rfl) hcond]
  rfl

theorem detect_tail_bmp (t : List Nat)
    (hft : pyslice ([0x42, 0x4d] ++ t) 4 8 ≠ ftypMagic) :
    detect_format ([0x42, 0x4d] ++ t) = some ("image", "BMP", ".bmp") := by
  have htake : pytake 512 ([0x42, 0x4d] ++ t) = [0x42, 0x4d] ++ pytake 510 t :=
    pytake_append_of_le 512 _ t (by decide)
  show detect_core (pytake 512 _) = _
  rw [htake]
  have hslice : (pyslice ([0x42, 0x4d] ++ pytake 510 t) 4 8 == ftypMagic) = false := by
    show (pytake 4 (pydrop 2 (pytake 510 t)) == ftypMagic) = false
    rw [pydrop_pytake, pytake_pytake, (by norm_num : min 4 (510 - 2) = 4)]
    exact beq_eq_false_iff_ne.mpr hft
  rw [detect_core_flat ([0x42, 0x4d] ++ pytake 510 t) (by rfl) (by rfl)
    (ftypCond_eq_false_of_slice hslice)]
  rfl

theorem detect_tail_tiff_ii (t : List Nat)
    (hft : pyslice ([0x49, 0x49, 0x2a, 0x00] ++ t) 4 8 ≠ ftypMagic) :
    detect_format ([0x49, 0x49, 0x2a, 0x00] ++ t) = some ("image", "TIFF", ".tiff") := by
  have htake : pytake 512 ([0x49, 0x49, 0x2a, 0x00] ++ t) = [0x49, 0x49, 0x2a, 0x00] ++ pytake 508 t :=
    pytake_append_of_le 512 _ t (by decide)
  show detect_core (pytake 512 _) = _
  rw [htake]
  have hslice : (pyslice ([0x49, 0x49, 0x2a, 0x00] ++ pytake 508 t) 4 8 == ftypMagic) = false := by
    show (pytake 4 (pytake 508 t) == ftypMagic) = false
    rw [pytake_pytake, (by norm_num : min 4 508 = 4)]
    exact beq_eq_false_iff_ne.mpr hft
  rw [detect_core_flat ([0x49, 0x49, 0x2a, 0x00] ++ pytake 508 t) (by rfl) (by rfl)
    (ftypCond_eq_false_of_slice hslice)]
  rfl

theorem detect_tail_tiff_mm (t : List Nat)
    (hft : pyslice ([0x4d, 0x4d, 0x00, 0x2a] ++ t) 4 8 ≠ ftypMagic) :
    detect_format ([0x4d, 0x4d, 0x00, 0x2a] ++ t) = some ("image", "TIFF", ".tiff") := by
  have htake : pytake 512 ([0x4d, 0x4d, 0x00, 0x2a] ++ t) = [0x4d, 0x4d, 0x00, 0x2a] ++ pytake 508 t :=
    pytake_append_of_le 512 _ t (by decide)
  show detect_core (pytake 512 _) = _
  rw [htake]
  have hslice : (pyslice ([0x4d, 0x4d, 0x00, 0x2a] ++ pytake 508 t) 4 8 == ftypMagic) = false := by
    show (pytake 4 (pytake 508 t) == ftypMagic) = false
    rw [pytake_pytake, (by norm_num : min 4 508 = 4)]
    exact beq_eq_false_iff_ne.mpr hft
  rw [detect_core_flat ([0x4d, 0x4d, 0x00, 0x2a] ++ pytake 508 t) (by rfl) (by rfl)
    (ftypCond_eq_false_of_slice hslice)]
  rfl

theorem detect_tail_ico (t : List Nat)
    (hft : pyslice ([0x00, 0x00, 0x01, 0x00] ++ t) 4 8 ≠ ftypMagic) :
    detect_format ([0x00, 0x00, 0x01, 0x00] ++ t) = some ("image", "ICO", ".ico") := by
  have htake : pytake 512 ([0x00, 0x00, 0x01, 0x00] ++ t) = [0x00, 0x00, 0x01, 0x00] ++ pytake 508 t :=
    pytake_append_of_le 512 _ t (by decide)
  show detect_core (pytake 512 _) = _
  rw [htake]
  have hslice : (pyslice ([0x00, 0x00, 0x01, 0x00] ++ pytake 508 t) 4 8 == ftypMagic) = false := by
    show (pytake 4 (pytake 508 t) == ftypMagic) = false
    rw [pytake_pytake, (by norm_num : min 4 508 = 4)]
    exact beq_eq_false_iff_ne.mpr hft
  rw [detect_core_flat ([0x00, 0x00, 0x01, 0x00] ++ pytake 508 t) (by rfl) (by rfl)
    (ftypCond_eq_false_of_slice hslice)]
  rfl

theorem detect_tail_mp3fb (t : List Nat)
    (hft : pyslice ([0xff, 0xfb] ++ t) 4 8 ≠ ftypMagic) :
    detect_format ([0xff, 0xfb] ++ t) = some ("audio", "MP3", ".mp3") := by
  have htake : pytake 512 ([0xff, 0xfb] ++ t) = [0xff, 0xfb] ++ pytake 510 t :=
    pytake_append_of_le 512 _ t (by decide)
  show detect_core (pytake 512 _) = _
  rw [htake]
  have hslice : (pyslice ([0xff, 0xfb] ++ pytake 510 t) 4 8 == ftypMagic) = false := by
    show (pytake 4 (pydrop 2 (pytake 510 t)) == ftypMagic) = false
    rw [pydrop_pytake, pytake_pytake, (by norm_num : min 4 (510 - 2) = 4)]
    exact beq_eq_false_iff_ne.mpr hft
  rw [detect_core_flat ([0xff, 0xfb] ++ pytake 510 t) (by rfl) (by rfl)
    (ftypCond_eq_false_of_slice hslice)]
  rfl

theorem detect_tail_id3 (t : List Nat)
    (hft : pyslice ([0x49, 0x44, 0x33] ++ t) 4 8 ≠ ftypMagic) :
    detect_format ([0x49, 0x44, 0x33] ++ t) = some ("audio", "MP3", ".mp3") := by
  have htake : pytake 512 ([0x49, 0x44, 0x33] ++ t) = [0x49, 0x44, 0x33] ++ pytake 509 t :=
    pytake_append_of_le 512 _ t (by decide)
  show detect_core (pytake 512 _) = _
  rw [htake]
  have hslice : (pyslice ([0x49, 0x44, 0x33] ++ pytake 509 t) 4 8 == ftypMagic) = false := by
    show (pytake 4 (pydrop 1 (pytake 509 t)) == ftypMagic) = false
    rw [pydrop_pytake, pytake_pytake, (by norm_num : min 4 (509 - 1) = 4)]
    exact beq_eq_false_iff_ne.mpr hft
  rw [detect_core_flat ([0x49, 0x44, 0x33] ++ pytake 509 t) (by rfl) (by rfl)
    (ftypCond_eq_false_of_slice hslice)]
  rfl

theorem detect_tail_webm (t : List Nat)
    (hft : pyslice ([0x1a, 0x45, 0xdf, 0xa3] ++ t) 4 8 ≠ ftypMagic) :
    detect_format ([0x1a, 0x45, 0xdf, 0xa3] ++ t) = some ("video", "WebM/MKV", ".webm") := by
  have htake : pytake 512 ([0x1a, 0x45, 0xdf, 0xa3] ++ t) = [0x1a, 0x45, 0xdf, 0xa3] ++ pytake 508 t :=
    pytake_append_of_le 512 _ t (by decide)
  show detect_core (pytake 512 _) = _
  rw [htake]
  have hslice : (pyslice ([0x1a, 0x45, 0xdf, 0xa3] ++ pytake 508 t) 4 8 == ftypMagic) = false := by
    show (pytake 4 (pytake 508 t) == ftypMagic) = false
    rw [pytake_pytake, (by norm_num : min 4 508 = 4)]
    exact beq_eq_false_iff_ne.mpr hft
  rw [detect_core_flat ([0x1a, 0x45, 0xdf, 0xa3] ++ pytake 508 t) (by rfl) (by rfl)
    (ftypCond_eq_false_of_slice hslice)]
  rfl

theorem detect_tail_isom (t : List Nat) :
    detect_format ([0x66, 0x74, 0x79, 0x70, 0x69, 0x73, 0x6f, 0x6d] ++ t) = some ("video", "MP4", ".mp4") := by
  have htake : pytake 512 ([0x66, 0x74, 0x79, 0x70, 0x69, 0x73, 0x6f, 0x6d] ++ t) = [0x66, 0x74, 0x79, 0x70, 0x69, 0x73, 0x6f, 0x6d] ++ pytake 504 t :=
    pytake_append_of_le 512 _ t (by decide)
  show detect_core (pytake 512 _) = _
  rw [htake]
  have hcond : ftypCond ([0x66, 0x74, 0x79, 0x70, 0x69, 0x73, 0x6f, 0x6d] ++ pytake 504 t) = false :=
    ftypCond_eq_false_of_slice rfl
  rw [detect_core_flat ([0x66, 0x74, 0x79, 0x70, 0x69, 0x73, 0x6f, 0x6d] ++ pytake 504 t) (by rfl) (by rfl) hcond]
  rfl

theorem detect_tail_mp42 (t : List Nat) :
    detect_format ([0x66, 0x74, 0x79, 0x70, 0x6d, 0x70, 0x34, 0x32] ++ t) = some ("video", "MP4", ".mp4") := by
  have htake : pytake 512 ([0x66, 0x74, 0x79, 0x70, 0x6d, 0x70, 0x34, 0x32] ++ t) = [0x66, 0x74, 0x79, 0x70, 0x6d, 0x70, 0x34, 0x32] ++ pytake 504 t :=
    pytake_append_of_le 512 _ t (by decide)
  show detect_core (pytake 512 _) = _
  rw [htake]
  have hcond : ftypCond ([0x66, 0x74, 0x79, 0x70, 0x6d, 0x70, 0x34, 0x32] ++ pytake 504 t) = false :=
    ftypCond_eq_false_of_slice rfl
  rw [detect_core_flat ([0x66, 0x74, 0x79, 0x70, 0x6d, 0x70, 0x34, 0x32] ++ pytake 504 t) (by rfl) (by rfl) hcond]
  rfl

theorem detect_tail_movqt (t : List Nat) :
    detect_format ([0x66, 0x74, 0x79, 0x70, 0x71, 0x74, 0x00] ++ t) = some ("video", "MOV", ".mov") := by
  have htake : pytake 512 ([0x66, 0x74, 0x79, 0x70, 0x71, 0x74, 0x00] ++ t) = [0x66, 0x74, 0x79, 0x70, 0x71, 0x74, 0x00] ++ pytake 505 t :=
    pytake_append_of_le 512 _ t (by decide)
  show detect_core (pytake 512 _) = _
  rw [htake]
  have hcond : ftypCond ([0x66, 0x74, 0x79, 0x70, 0x71, 0x74, 0x00] ++ pytake 505 t) = false :=
    ftypCond_eq_false_of_slice rfl
  rw [detect_core_flat ([0x66, 0x74, 0x79, 0x70, 0x71, 0x74, 0x00] ++ pytake 505 t) (by rfl) (by rfl) hcond]
  rfl

theorem detect_tail_flac (t : List Nat)
    (hft : pyslice ([0x66, 0x6c, 0x61, 0x63] ++ t) 4 8 ≠ ftypMagic) :
    detect_format ([0x66, 0x6c, 0x61, 0x63] ++ t) = some ("audio", "FLAC", ".flac") := by
  have htake : pytake 512 ([0x66, 0x6c, 0x61, 0x63] ++ t) = [0x66, 0x6c, 0x61, 0x63] ++ pytake 508 t :=
    pytake_append_of_le 512 _ t (by decide)
  show detect_core (pytake 512 _) = _
  rw [htake]
  have hslice : (pyslice ([0x66, 0x6c, 0x61, 0x63] ++ pytake 508 t) 4 8 == ftypMagic) = false := by
    show (pytake 4 (pytake 508 t) == ftypMagic) = false
    rw [pytake_pytake, (by norm_num : min 4 508 = 4)]
    exact beq_eq_false_iff_ne.mpr hft
  rw [detect_core_flat ([0x66, 0x6c, 0x61, 0x63] ++ pytake 508 t) (by rfl) (by rfl)
    (ftypCond_eq_false_of_slice hslice)]
  rfl

theorem detect_tail_oggs (t : List Nat)
    (hft : pyslice ([0x4f, 0x67, 0x67, 0x53] ++ t) 4 8 ≠ ftypMagic) :
    detect_format ([0x4f, 0x67, 0x67, 0x53] ++ t) = some ("audio", "OGG", ".ogg") := by
  have htake : pytake 512 ([0x4f, 0x67, 0x67, 0x53] ++ t) = [0x4f, 0x67, 0x67, 0x53] ++ pytake 508 t :=
    pytake_append_of_le 512 _ t (by decide)
  show detect_core (pytake 512 _) = _
  rw [htake]
  have hslice : (pyslice ([0x4f, 0x67, 0x67, 0x53] ++ pytake 508 t) 4 8 == ftypMagic) = false := by
    show (pytake 4 (pytake 508 t) == ftypMagic) = false
    rw [pytake_pytake, (by norm_num : min 4 508 = 4)]
    exact beq_eq_false_iff_ne.mpr hft
  rw [detect_core_flat ([0x4f, 0x67, 0x67, 0x53] ++ pytake 508 t) (by rfl) (by rfl)
    (ftypCond_eq_false_of_slice hslice)]
  rfl

theorem detect_tail_heic (t : List Nat) :
    detect_format ([0x00, 0x00, 0x00, 0x20, 0x66, 0x74, 0x79, 0x70, 0x68, 0x65, 0x69, 0x63] ++ t) = some ("image", "HEIC", ".heic") := by
  have htake : pytake 512 ([0x00, 0x00, 0x00, 0x20, 0x66, 0x74, 0x79, 0x70, 0x68, 0x65, 0x69, 0x63] ++ t) = [0x00, 0x00, 0x00, 0x20, 0x66, 0x74, 0x79, 0x70, 0x68, 0x65, 0x69, 0x63] ++ pytake 500 t :=
    pytake_append_of_le 512 _ t (by decide)
  show detect_core (pytake 512 _) = _
  rw [htake]
  apply detect_core_ftyp _ _ (by rfl) (by rfl)
  · have hlen : 8 < ([0x00, 0x00, 0x00, 0x20, 0x66, 0x74, 0x79, 0x70, 0x68, 0x65, 0x69, 0x63] ++ pytake 500 t).length := by
      simp [List.length_append]
    unfold ftypCond
    rw [decide_eq_true hlen, Bool.true_and]
    rfl
  · rfl


/-- Claim C3 (counterexample): the `OggS` signature is in the fixed table
and a file of exactly those magic bytes is detected as OGG, but appending
the trailing bytes `ftypisom` changes the result of `detect_format` to MP4
(the ftyp secondary check fires on bytes 4-8), refuting the claim that
appending trailing bytes never changes the result. -/
theorem detect_format_counterexample :
    ([0x4f, 0x67, 0x67, 0x53], (("audio", "OGG", ".ogg") : FormatTriple)) ∈
      SIGNATURES ∧
    detect_format [0x4f, 0x67, 0x67, 0x53] = some ("audio", "OGG", ".ogg") ∧
    detect_format ([0x4f, 0x67, 0x67, 0x53] ++
      [0x66, 0x74, 0x79, 0x70, 0x69, 0x73, 0x6f, 0x6d]) =
      some ("video", "MP4", ".mp4") ∧
    (some (("video", "MP4", ".mp4") : FormatTriple)) ≠
      some ("audio", "OGG", ".ogg") := by
  refine ⟨by decide, by decide, by decide, by decide⟩

/-- Claim C3 (amended): for every signature in the Format Sniffer's fixed
signature table, a file whose content is exactly that magic prefix is
detected by `detect_format` as the associated (media kind, format name,
canonical extension); appending trailing bytes never changes the result
provided the signature is at least 8 bytes long or the extended content
does not carry the bytes `ftyp` at offsets 4-8 (otherwise the ftyp
secondary check may reinterpret the file); and the RIFF and ftyp secondary
checks are applied before the flat signature table: whenever one of them
matches, its result is returned regardless of the flat table. -/
theorem detect_format_spec :
    (∀ p ∈ SIGNATURES, detect_format p.1 = some p.2) ∧
    (∀ p ∈ SIGNATURES, ∀ t : List Nat,
      8 ≤ p.1.length ∨ pyslice (p.1 ++ t) 4 8 ≠ ftypMagic →
      detect_format (p.1 ++ t) = some p.2) ∧
    (∀ (content : List Nat) (r : FormatTriple),
      riffCond (pytake 512 content) = true →
      lookupSig RIFF_SIGNATURES (pyslice (pytake 512 content) 8 12) = some r →
      detect_format content = some r) ∧
    (∀ (content : List Nat) (r : FormatTriple),
      riffCond (pytake 512 content) = false →
      ftypCond (pytake 512 content) = true →
      ftypLookup (pyslice (pytake 512 content) 8 12) = some r →
      detect_format content = some r) := by
  refine ⟨by decide, ?_, ?_, ?_⟩
  · intro p hp t hside
    simp only [SIGNATURES, List.mem_cons, List.not_mem_nil, or_false] at hp
    rcases hp with rfl | rfl | rfl | rfl | rfl | rfl | rfl | rfl | rfl | rfl | rfl |
      rfl | rfl | rfl | rfl | rfl | rfl
    · exact detect_tail_jpeg t (hside.resolve_left (by decide))
    · exact detect_tail_png t
    · exact detect_tail_gif87 t
    · exact detect_tail_gif89 t
    · exact detect_tail_bmp t (hside.resolve_left (by decide))
    · exact detect_tail_tiff_ii t (hside.resolve_left (by decide))
    · exact detect_tail_tiff_mm t (hside.resolve_left (by decide))
    · exact detect_tail_ico t (hside.resolve_left (by decide))
    · exact detect_tail_mp3fb t (hside.resolve_left (by decide))
    · exact detect_tail_id3 t (hside.resolve_left (by decide))
    · exact detect_tail_webm t (hside.resolve_left (by decide))
    · exact detect_tail_isom t
    · exact detect_tail_mp42 t
    · exact detect_tail_movqt t
    · exact detect_tail_flac t (hside.resolve_left (by decide))
    · exact detect_tail_oggs t (hside.resolve_left (by decide))
    · exact detect_tail_heic t
  · intro content r h1 h2
    exact detect_core_riff (pytake 512 content) r h1 h2
  · intro content r h0 h1 h2
    have hne : (pytake 512 content).isEmpty = false := by
      rcases hcc : pytake 512 content with _ | ⟨b, h'⟩
      · rw [hcc] at h1
        simp [ftypCond] at h1
      · rfl
    exact detect_core_ftyp (pytake 512 content) r hne h0 h1 h2

/-- Witness for C3: the amended theorem applied at a concrete signature, a
concrete trailing extension, and concrete RIFF / ftyp container files. -/
theorem detect_format_spec_witness :
    detect_format [0xff, 0xd8, 0xff] = some ("image", "JPEG", ".jpg") ∧
    detect_format ([0x4f, 0x67, 0x67, 0x53] ++ [0, 0, 0, 0]) =
      some ("audio", "OGG", ".ogg") ∧
    detect_format [0x52, 0x49, 0x46, 0x46, 0, 0, 0, 0, 0x57, 0x45, 0x42, 0x50, 0] =
      some ("image", "WebP", ".webp") ∧
    detect_format [0, 0, 0, 0x20, 0x66, 0x74, 0x79, 0x70, 0x69, 0x73, 0x6f, 0x6d] =
      some ("video", "MP4", ".mp4") :=
  ⟨detect_format_spec.1 ([0xff, 0xd8, 0xff], ("image", "JPEG", ".jpg")) (by decide),
   detect_format_spec.2.1 ([0x4f, 0x67, 0x67, 0x53], ("audio", "OGG", ".ogg"))
     (by decide) [0, 0, 0, 0] (Or.inr (by decide)),
   detect_format_spec.2.2.1 _ _ (by decide) (by decide),
   detect_format_spec.2.2.2 _ _ (by decide) (by decide) (by decide)⟩

end ExtensionHandler

end CivitaiMediaHoarder
